import Mathlib

/-!
Verification of the DM MySQL binlog relay subsystem: purge-by-filename
strategy, relay-file recovery, the event pump, and the relay holder.
Definitions are shallow embeddings of the Go source; components whose
implementation is not available are modelled from the specification and
marked as such in their doc comments.
-/

set_option maxRecDepth 4000

namespace Relay

/-! ## UUID-suffixed sub-directory names and relay-log ordering -/

/-- Byte-wise lexicographic comparison of strings (Go's
`strings.Compare(a, b) < 0`); on UTF-8 text codepoint order coincides
with byte order. -/
def charListLt : List Char → List Char → Bool
  | [], [] => false
  | [], _ :: _ => true
  | _ :: _, [] => false
  | a :: as, b :: bs =>
      if a.toNat < b.toNat then true
      else if b.toNat < a.toNat then false
      else charListLt as bs

/-- Lexicographic `<` on strings, as used for relay-log file names. -/
def strLt (a b : String) : Bool := charListLt a.data b.data

/-- Split a character list at its last dot: `some (before, after)`, or
`none` when no dot occurs. -/
def splitAtLastDot : List Char → Option (List Char × List Char)
  | [] => none
  | c :: rest =>
      match splitAtLastDot rest with
      | some (pre, suf) => some (c :: pre, suf)
      | none => if c = '.' then some ([], rest) else none

/-- Decimal value of a digit list (`none` when a non-digit occurs). -/
def decDigitsAux : List Char → Nat → Option Nat
  | [], acc => some acc
  | c :: rest, acc =>
      if c.isDigit then decDigitsAux rest (acc * 10 + (c.toNat - 48)) else none

/-- Modelled from the spec: `utils.ParseSuffixForUUID` is not part of the
available sources.  The spec defines a sub-directory name as
`<uuid>.<suffix>` where the suffix is a zero-padded decimal; the function
splits off the suffix after the last dot and returns `(uuid, suffix)`
(with suffix `0` when it is not a decimal number). -/
def parseSuffixForUUID (s : String) : String × Nat :=
  match splitAtLastDot s.data with
  | none => (s, 0)
  | some (pre, suf) => (String.mk pre, (decDigitsAux suf 0).getD 0)

/-- `streamer.RelayLogInfo`: (task, sub-directory uuid, parsed suffix,
file name inside the sub-directory). -/
structure RelayLogInfo where
  taskName : String
  uuid : String
  uuidSuffix : Nat
  filename : String
  deriving Repr, DecidableEq

/-- Modelled from the spec: `streamer.RelayLogInfo.Earlier` is not part of
the available sources.  The spec orders relay logs first by UUID suffix,
then by filename lexicographically. -/
def RelayLogInfo.Earlier (a b : RelayLogInfo) : Bool :=
  if a.uuidSuffix ≠ b.uuidSuffix then decide (a.uuidSuffix < b.uuidSuffix)
  else strLt a.filename b.filename

/-! ## Purger: filenameArgs.SetActiveRelayLog (src/unnamed/part_001) -/

/-- `strategyFilename.String()`, used as the fake task name. -/
def fakeTaskName : String := "filename"

/-- `filenameArgs` of the purger's filename strategy. -/
structure filenameArgs where
  relayBaseDir : String
  filename : String
  subDir : String
  uuids : List String
  safeRelayLog : Option RelayLogInfo
  deriving Repr, DecidableEq

/-- The `for ... break` loop in `SetActiveRelayLog` that discards newer
UUIDs: keep elements until the first one whose parsed suffix exceeds
`endSuffix`. -/
def discardNewerUUIDs : List String → Nat → List String
  | [], _ => []
  | u :: rest, endSuffix =>
      if (parseSuffixForUUID u).2 > endSuffix then []
      else u :: discardNewerUUIDs rest endSuffix

/-- `filenameArgs.SetActiveRelayLog`: choose the target sub-directory
(the given `subDir`, or the last uuid when `subDir` is empty and `uuids`
is non-empty), build the safe relay log from it and the requested
filename, replace it by `active` when `active` is earlier, and truncate
`uuids` at the first suffix greater than the target's. -/
def filenameArgs.SetActiveRelayLog (fa : filenameArgs) (active : RelayLogInfo) :
    filenameArgs :=
  let uuid := if fa.subDir.length = 0 ∧ fa.uuids.length > 0 then
                fa.uuids.getLastD "" else fa.subDir
  let endSuffix := (parseSuffixForUUID uuid).2
  let safeRelayLog : RelayLogInfo :=
    { taskName := fakeTaskName, uuid := uuid, uuidSuffix := endSuffix,
      filename := fa.filename }
  let safeRelayLog := if active.Earlier safeRelayLog then active else safeRelayLog
  { fa with safeRelayLog := some safeRelayLog,
            uuids := discardNewerUUIDs fa.uuids endSuffix }

/-- The target sub-directory chosen at the start of `SetActiveRelayLog`. -/
def filenameArgs.targetSubDir (fa : filenameArgs) : String :=
  if fa.subDir.length = 0 ∧ fa.uuids.length > 0 then fa.uuids.getLastD ""
  else fa.subDir

/-- The safe relay log built from the target sub-directory before the
comparison with the active relay log. -/
def filenameArgs.initialSafeRelayLog (fa : filenameArgs) : RelayLogInfo :=
  { taskName := fakeTaskName, uuid := fa.targetSubDir,
    uuidSuffix := (parseSuffixForUUID fa.targetSubDir).2,
    filename := fa.filename }

/-! ## GTID sets -/

/-- A flavor-independent GTID set: per origin UUID, a list of closed
intervals `(start, end)` of transaction numbers.  Sets handled by the
relay are normalized (intervals sorted, disjoint, non-adjacent), so one
interval of a contained set is always covered by a single interval of the
container. -/
def GTIDSet : Type := List (String × List (Nat × Nat))

instance : DecidableEq GTIDSet := by
  unfold GTIDSet
  infer_instance

instance : Repr GTIDSet := by
  unfold GTIDSet
  infer_instance

/-- `[a, b]` is covered by one of the intervals in `ivs`. -/
def coveredBy (a b : Nat) (ivs : List (Nat × Nat)) : Bool :=
  ivs.any fun iv => decide (iv.1 ≤ a ∧ b ≤ iv.2)

/-- The interval list a GTID set holds for `origin` (empty when the
origin is absent). -/
def originIntervals (g : GTIDSet) (origin : String) : List (Nat × Nat) :=
  match List.find? (fun p => p.1 == origin) g with
  | some p => p.2
  | none => []

/-- `gsetContain big small`: every interval of every origin of `small`
is covered by `big` (GTID `Contain`, on normalized sets). -/
def gsetContain (big small : GTIDSet) : Bool :=
  small.all fun p => p.2.all fun iv => coveredBy iv.1 iv.2 (originIntervals big p.1)

/-- A GTID set with no transaction at all (e.g. parsed from `""`). -/
def gsetEmpty (g : GTIDSet) : Bool := g.all fun p => p.2.isEmpty

/-- Union of two GTID sets; the relay only ever adds newly committed
transactions, so an interval-list append per origin suffices here. -/
def gsetMerge (a b : GTIDSet) : GTIDSet :=
  let keysA := a.map Prod.fst
  (a.map fun p => (p.1, p.2 ++ originIntervals b p.1)) ++
    b.filter fun p => ¬ keysA.contains p.1

/-! ## File recovery (tryRecoverLatestFile) -/

/-- Modelled from the spec: `AddGSetWithPurged` applied by recovery is not
part of the available sources.  When the server-reported `gtid_purged` is
known and non-empty, each origin range `(s, e)` of the computed set with
`s > 1` whose prefix `[1, s-1]` is covered by the purged set for that
origin is extended to `(1, e)`. -/
def addGSetWithPurged (computed purged : GTIDSet) : GTIDSet :=
  if gsetEmpty purged then computed
  else computed.map fun p =>
    (p.1, p.2.map fun iv =>
      if 1 < iv.1 ∧ coveredBy 1 (iv.1 - 1) (originIntervals purged p.1) then
        (1, iv.2)
      else iv)

/-- Modelled from the spec: the GTID reconciliation step of
`tryRecoverLatestFile` is not part of the available sources.  The
computed set is first extended by `gtid_purged`; then the persisted set
is kept when it is a superset of the extended computed set, and replaced
by the extended computed set otherwise. -/
def recoverGTIDs (persisted computed purged : GTIDSet) : GTIDSet :=
  let computed' := addGSetWithPurged computed purged
  if gsetContain persisted computed' then persisted else computed'

/-- Modelled from the spec: the binlog event parser used by
`tryRecoverLatestFile` is not part of the available sources.  The spec
says a relay file is a sequence of self-delimited framed events whose
header records the event's end offset; we model a frame as its total
length (at least 1) followed by payload bytes.  `lastGoodPos bytes` is
the end offset of the last syntactically complete event: parsing stops
at the first frame whose recorded length overruns the remaining bytes. -/
def lastGoodPos : List Nat → Nat
  | [] => 0
  | n :: rest =>
      if _h : 1 ≤ n ∧ n - 1 ≤ rest.length then
        n + lastGoodPos (rest.drop (n - 1))
      else 0
termination_by bytes => bytes.length
decreasing_by
  simp only [List.length_cons, List.length_drop]
  omega

/-- The state produced by recovery of the latest relay file: the file
contents after truncation and the written-back meta. -/
structure RecoveredFile where
  bytes : List Nat
  metaName : String
  metaPos : Nat
  metaGTIDs : GTIDSet
  dirty : Bool
  deriving Repr, DecidableEq

/-- Modelled from the spec: `tryRecoverLatestFile` is not part of the
available sources (only its tests are).  Parse the file, truncate it to
the last complete event's end offset, reconcile the GTID sets, and write
back position `(filename, lastGoodPos)` and the reconciled set, flushed
(`dirty = false`). -/
def tryRecoverLatestFile (filename : String) (file : List Nat)
    (persisted computed purged : GTIDSet) : RecoveredFile :=
  let pos := lastGoodPos file
  { bytes := file.take pos
    metaName := filename
    metaPos := pos
    metaGTIDs := recoverGTIDs persisted computed purged
    dirty := false }

/-! ## Event pump (handleEvents) -/

/-- Reader errors distinguished by the spec. -/
inductive ReaderError
  | checksumMismatch
  | syncClosed
  | needSyncAgain
  | other (msg : String)
  deriving Repr, DecidableEq

/-- Errors surfaced by one pump iteration. -/
inductive PumpError
  | readerErr (e : ReaderError)
  | writerErr (msg : String)
  deriving Repr, DecidableEq

/-- A binlog event header (only the fields the pump consults). -/
structure EventHeader where
  logPos : Nat
  deriving Repr, DecidableEq

/-- Binlog event bodies distinguished by the pump's meta-update rules. -/
inductive EventBody
  | rotate (nextName : String) (nextPos : Nat)
  | query (gset : Option GTIDSet)
  | xid (gset : Option GTIDSet)
  | heartbeat
  | otherEvent
  deriving Repr, DecidableEq

/-- A binlog event as seen by the pump. -/
structure BinlogEvent where
  header : EventHeader
  body : EventBody
  deriving Repr, DecidableEq

/-- Modelled from the spec: the Transformer is an external collaborator;
it classifies heartbeat (and other noise) events as ignorable. -/
def transformIgnore (ev : BinlogEvent) : Bool :=
  match ev.body with
  | .heartbeat => true
  | _ => false

/-- The meta store's buffered values plus its dirty flag. -/
structure Meta where
  posName : String
  posPos : Nat
  gset : GTIDSet
  dirty : Bool
  deriving Repr, DecidableEq

/-- Pump-local state: the meta store and the pending (unmerged) GTID
buffer. -/
structure PumpState where
  meta : Meta
  pending : GTIDSet
  deriving Repr, DecidableEq

/-- A writer's behavior for one event: an optional error message and the
`Ignore` mark of its result. -/
def WriterBehavior : Type := BinlogEvent → Option String × Bool

/-- One item produced by `Reader.GetEvent`: a context cancellation, a
reader error, or an event. -/
inductive ReadItem
  | canceled
  | fail (e : ReaderError)
  | ev (e : BinlogEvent)
  deriving Repr, DecidableEq

/-- The process result of the pump: the cancellation flag and the error
propagated to the caller, if any. -/
structure HandleResult where
  isCanceled : Bool
  err : Option PumpError
  deriving Repr, DecidableEq

/-- Modelled from the spec: the meta-update rules of one pump iteration.
Rotate events set the position to the rotate target `(name, 4)`, clear
the pending GTID buffer and `Save`+`Flush` immediately (`dirty = false`);
query/XID events carrying a GTID set advance the position to the header's
`LogPos`, merge the set into meta and `Save` (flush deferred); all other
events advance only the position and `Save`. -/
def applyMeta (st : PumpState) (ev : BinlogEvent) : PumpState :=
  match ev.body with
  | .rotate name _ =>
      { meta := { st.meta with posName := name, posPos := 4, dirty := false }
        pending := [] }
  | .query (some g) =>
      { meta :=
          { st.meta with
              posPos := ev.header.logPos
              gset := gsetMerge st.meta.gset g
              dirty := true }
        pending := gsetMerge st.pending g }
  | .xid (some g) =>
      { meta :=
          { st.meta with
              posPos := ev.header.logPos
              gset := gsetMerge st.meta.gset g
              dirty := true }
        pending := gsetMerge st.pending g }
  | _ =>
      { st with meta := { st.meta with posPos := ev.header.logPos, dirty := true } }

/-- Modelled from the spec: `handleEvents` is not part of the available
sources (only its tests are).  It loops over reader outcomes: a context
cancellation returns `{Canceled, no error}`; a reader error is propagated
unwrapped; an event ignored by the Transformer is skipped whole; a write
error is propagated; a writer result marked `Ignore` skips the meta
update; otherwise the meta-update rules run.  The returned list records
the events handed to `Writer.WriteEvent`, in order. -/
def handleEvents (writer : WriterBehavior) :
    PumpState → List ReadItem → HandleResult × PumpState × List BinlogEvent
  | st, [] => (⟨false, none⟩, st, [])
  | st, .canceled :: _ => (⟨true, none⟩, st, [])
  | st, .fail e :: _ => (⟨false, some (.readerErr e)⟩, st, [])
  | st, .ev e :: rest =>
      if transformIgnore e then handleEvents writer st rest
      else
        match writer e with
        | (some msg, _) => (⟨false, some (.writerErr msg)⟩, st, [e])
        | (none, ignore) =>
            let st' := if ignore then st else applyMeta st e
            let r := handleEvents writer st' rest
            (r.1, r.2.1, e :: r.2.2)

/-! ## Relay holder (Close / Status / Error) -/

/-- Holder stages. -/
inductive Stage
  | new
  | running
  | paused
  | stopped
  deriving Repr, DecidableEq

/-- The pump's process result recorded by the holder. -/
structure ProcessResult where
  isCanceled : Bool
  errors : List String
  deriving Repr, DecidableEq

/-- The holder state guarded by its mutex. -/
structure HolderState where
  stage : Stage
  closed : Bool
  result : Option ProcessResult
  deriving Repr, DecidableEq

/-- Modelled from the spec: `realRelayHolder.Close` is not part of the
available sources (only its tests are).  When not yet closed: cancel the
pump, capture its process result, set `closed`, and set the internal
stage to `Paused` (not `Stopped`).  A second call is a no-op. -/
def closeHolder (h : HolderState) (pumpResult : ProcessResult) : HolderState :=
  if h.closed then h
  else { stage := .paused, closed := true, result := some pumpResult }

/-- Modelled from the spec: `realRelayHolder.Status` — when `closed`, the
reported stage is `Stopped` even though the internal stage is `Paused`,
and the reported result is cleared. -/
def holderStatus (h : HolderState) : Stage × Option ProcessResult :=
  if h.closed then (.stopped, none) else (h.stage, h.result)

/-- Modelled from the spec: `realRelayHolder.Error` — when `closed` and
the internal stage is `Paused`, a synthetic error with message
`"relay stopped"` is returned. -/
def holderError (h : HolderState) : Option String :=
  if h.closed ∧ h.stage = .paused then some "relay stopped" else none

/-! ## Purger: filenameStrategy.Do (src/unnamed/part_001) -/

/-- The file system seen by the purger: the relay files still present,
as `(sub-directory, filename)` pairs. -/
def FileSys : Type := List (String × String)

instance : DecidableEq FileSys := by
  unfold FileSys
  infer_instance

/-- The result of `filenameStrategy.Do`. -/
inductive PurgeResult
  | ok
  | selfPurging
  | invalidArgs
  | deleteErr (subdir file : String)
  deriving Repr, DecidableEq

/-- The deletion targets of `purgeRelayFilesBeforeFile`: all files of
the non-last uuids, and the files of the last uuid lexicographically
earlier than the safe filename. -/
def purgeTargets (uuids : List String) (safeName : String) (fs : FileSys) :
    List (String × String) :=
  match uuids with
  | [] => []
  | _ =>
      fs.filter fun df =>
        (uuids.dropLast.contains df.1) ||
          (df.1 == uuids.getLastD "" && charListLt df.2.data safeName.data)

/-- Delete the targets one by one; `errOn` says which deletions fail, and
the first failure aborts with the offending file surfaced. -/
def deleteFiles (errOn : String → String → Bool) :
    FileSys → List (String × String) → FileSys × Option (String × String)
  | fs, [] => (fs, none)
  | fs, t :: rest =>
      if errOn t.1 t.2 then (fs, some t)
      else deleteFiles errOn (fs.erase t) rest

/-- Modelled from the spec: `purgeRelayFilesBeforeFile` is not part of
the available sources.  Delete all files in `uuids[0..n-2]` fully and, in
`uuids[n-1]`, the files lexicographically earlier than the safe relay
log's filename; best effort per file, the first error aborts and is
surfaced. -/
def purgeRelayFilesBeforeFile (errOn : String → String → Bool)
    (uuids : List String) (safeName : String) (fs : FileSys) :
    FileSys × Option (String × String) :=
  deleteFiles errOn fs (purgeTargets uuids safeName fs)

/-- The `filenameStrategy` struct: its single `purging` flag
(`sync2.AtomicInt32`). -/
structure filenameStrategy where
  purging : Nat
  deriving Repr, DecidableEq

/-- `purging.CompareAndSwap(0, 1)`: succeeds (and sets the flag) exactly
when the flag is 0. -/
def casPurging (s : filenameStrategy) : Bool × filenameStrategy :=
  if s.purging = 0 then (true, ⟨1⟩) else (false, s)

/-- The deferred `purging.Set(0)`. -/
def releasePurging (_ : filenameStrategy) : filenameStrategy := ⟨0⟩

/-- `filenameStrategy.Purging`: the flag read as a boolean. -/
def filenameStrategy.Purging (s : filenameStrategy) : Bool :=
  decide (s.purging > 0)

/-- The `args interface{}` passed to `Do`: either a `*filenameArgs` or a
value of some other type (rejected as not valid). -/
inductive DoArgs
  | filename (fa : filenameArgs)
  | badArgs
  deriving Repr, DecidableEq

/-- The body of `Do` after the flag is acquired: the type check of `args`
followed by `purgeRelayFilesBeforeFile` on `fa.uuids` and
`fa.safeRelayLog`. -/
def doBody (errOn : String → String → Bool) (args : DoArgs) (fs : FileSys) :
    PurgeResult × FileSys :=
  match args with
  | .badArgs => (.invalidArgs, fs)
  | .filename fa =>
      let safeName := ((fa.safeRelayLog).map RelayLogInfo.filename).getD ""
      match purgeRelayFilesBeforeFile errOn fa.uuids safeName fs with
      | (fs', none) => (.ok, fs')
      | (fs', some t) => (.deleteErr t.1 t.2, fs')

/-- `filenameStrategy.Do`: compare-and-swap the `purging` flag (a failed
swap returns `ErrSelfPurging` untouched), run the body, and release the
flag on return (the deferred `Set(0)`). -/
def filenameStrategy.Do (errOn : String → String → Bool) (s : filenameStrategy)
    (args : DoArgs) (fs : FileSys) : PurgeResult × filenameStrategy × FileSys :=
  match casPurging s with
  | (false, s') => (.selfPurging, s', fs)
  | (true, s') =>
      let r := doBody errOn args fs
      (r.1, releasePurging s', r.2)

/-! ## Concrete example values used by the witnesses -/

/-- A relay base with three suffix-sorted sub-directories and no
sub-directory specified (so the last one is the target). -/
def exFA : filenameArgs :=
  { relayBaseDir := "relay", filename := "mysql-bin.000001", subDir := "",
    uuids := ["a.000001", "b.000002", "c.000003"], safeRelayLog := none }

/-- An active relay log inside the middle sub-directory, hence earlier
than the safe relay log built from the last sub-directory. -/
def exActive : RelayLogInfo :=
  { taskName := "t", uuid := "b.000002", uuidSuffix := 2,
    filename := "mysql-bin.000001" }

/-- A writer that accepts every event. -/
def okWriter : WriterBehavior := fun _ => (none, false)

/-- A writer that marks every event's result as `Ignore`. -/
def ignWriter : WriterBehavior := fun _ => (none, true)

/-- A pump state with a flushed meta at `(mysql-bin.000001, 123)`. -/
def exPumpState : PumpState :=
  { meta := { posName := "mysql-bin.000001", posPos := 123,
              gset := [], dirty := false }
    pending := [] }

/-- A query event committing `Z:1-3` at offset 200. -/
def exQueryEv : BinlogEvent := ⟨⟨200⟩, .query (some [("Z", [(1, 3)])])⟩

/-- A rotate event to `(mysql-bin.666888, 4)`. -/
def exRotateEv : BinlogEvent := ⟨⟨123⟩, .rotate "mysql-bin.666888" 4⟩

/-- A heartbeat event (ignored by the Transformer). -/
def exHeartbeatEv : BinlogEvent := ⟨⟨0⟩, .heartbeat⟩

/-- A running, not yet closed holder. -/
def exHolder : HolderState := ⟨.running, false, none⟩

/-- A canceled process result carrying one error. -/
def exProcResult : ProcessResult := ⟨true, ["process error"]⟩

/-- Persisted GTID set of the recovery scenario: a proper superset on
origins `X` and `Y` but with `Z:123-456` not covering the extended
`Z:1-456`. -/
def exPersisted : GTIDSet :=
  [("X", [(1, 20)]), ("Y", [(1, 510)]), ("Z", [(123, 456)])]

/-- GTID set computed from the relay file in the recovery scenario. -/
def exComputed : GTIDSet :=
  [("X", [(1, 17)]), ("Y", [(1, 505)]), ("Z", [(123, 456)])]

/-- Server-reported `gtid_purged` covering `Z:1-122`. -/
def exPurged : GTIDSet := [("Z", [(1, 122)])]

/-! ## Helper lemmas -/

theorem charListLt_self : ∀ l : List Char, charListLt l l = false := by
  intro l
  induction l with
  | nil => rfl
  | cons a as ih => simp [charListLt, ih]

theorem Earlier_irrefl (a : RelayLogInfo) : a.Earlier a = false := by
  simp [RelayLogInfo.Earlier, strLt, charListLt_self]

theorem string_length_zero_iff (s : String) : s.length = 0 ↔ s = "" := by
  constructor
  · intro h
    cases s with
    | mk data =>
        cases data with
        | nil => rfl
        | cons c cs => simp [String.length] at h
  · intro h
    subst h
    rfl

theorem mem_discardNewerUUIDs (k : Nat) :
    ∀ l : List String,
      l.Pairwise (fun a b => (parseSuffixForUUID a).2 ≤ (parseSuffixForUUID b).2) →
      ∀ u, u ∈ discardNewerUUIDs l k ↔
        (u ∈ l ∧ (parseSuffixForUUID u).2 ≤ k) := by
  intro l
  induction l with
  | nil =>
      intro _ u
      simp [discardNewerUUIDs]
  | cons a rest ih =>
      intro hp u
      rw [List.pairwise_cons] at hp
      by_cases hgt : (parseSuffixForUUID a).2 > k
      · simp only [discardNewerUUIDs, if_pos hgt]
        constructor
        · intro h
          exact absurd h (List.not_mem_nil u)
        · rintro ⟨hmem, hle⟩
          rcases List.mem_cons.mp hmem with rfl | hmem'
          · omega
          · have := hp.1 u hmem'
            omega
      · simp only [discardNewerUUIDs, if_neg hgt]
        constructor
        · intro h
          rcases List.mem_cons.mp h with rfl | h'
          · exact ⟨List.mem_cons_self _ _, by omega⟩
          · have := (ih hp.2 u).mp h'
            exact ⟨List.mem_cons_of_mem _ this.1, this.2⟩
        · rintro ⟨hmem, hle⟩
          rcases List.mem_cons.mp hmem with rfl | hmem'
          · exact List.mem_cons_self _ _
          · exact List.mem_cons_of_mem _ ((ih hp.2 u).mpr ⟨hmem', hle⟩)

theorem lastGoodPos_le (bytes : List Nat) : lastGoodPos bytes ≤ bytes.length := by
  induction bytes using lastGoodPos.induct with
  | case1 => simp [lastGoodPos]
  | case2 n rest h ih =>
      rw [lastGoodPos, dif_pos h]
      have hdrop : (rest.drop (n - 1)).length = rest.length - (n - 1) :=
        List.length_drop _ _
      simp only [List.length_cons]
      omega
  | case3 n rest h =>
      rw [lastGoodPos, dif_neg h]
      omega

theorem lastGoodPos_take (bytes : List Nat) :
    lastGoodPos (bytes.take (lastGoodPos bytes)) = lastGoodPos bytes := by
  induction bytes using lastGoodPos.induct with
  | case1 => simp [lastGoodPos]
  | case2 n rest h ih =>
      have hle : lastGoodPos (rest.drop (n - 1)) ≤ (rest.drop (n - 1)).length :=
        lastGoodPos_le _
      have hg : lastGoodPos (n :: rest) = n + lastGoodPos (rest.drop (n - 1)) := by
        rw [lastGoodPos, dif_pos h]
      rw [hg]
      have hsplit : n + lastGoodPos (rest.drop (n - 1)) =
          ((n - 1) + lastGoodPos (rest.drop (n - 1))) + 1 := by
        omega
      rw [hsplit, List.take_succ_cons, List.take_add]
      have hAlen : (rest.take (n - 1)).length = n - 1 := by
        rw [List.length_take]
        omega
      have hcond : 1 ≤ n ∧ n - 1 ≤
          (rest.take (n - 1) ++
            (rest.drop (n - 1)).take (lastGoodPos (rest.drop (n - 1)))).length := by
        refine ⟨h.1, ?_⟩
        rw [List.length_append, hAlen]
        omega
      rw [lastGoodPos, dif_pos hcond]
      have hdropeq :
          (rest.take (n - 1) ++
              (rest.drop (n - 1)).take (lastGoodPos (rest.drop (n - 1)))).drop (n - 1) =
            (rest.drop (n - 1)).take (lastGoodPos (rest.drop (n - 1))) := by
        nth_rewrite 1 [← hAlen]
        exact List.drop_left _ _
      rw [hdropeq, ih]
      omega
  | case3 n rest h =>
      rw [lastGoodPos, dif_neg h]
      simp [lastGoodPos]

theorem doBody_fst_ne_selfPurging (errOn : String → String → Bool)
    (args : DoArgs) (fs : FileSys) : (doBody errOn args fs).1 ≠ .selfPurging := by
  rcases args with fa | _
  · rw [doBody]
    rcases hp : purgeRelayFilesBeforeFile errOn fa.uuids
        ((fa.safeRelayLog.map RelayLogInfo.filename).getD "") fs with ⟨fs', err⟩
    rcases err with _ | t
    · simp [hp]
    · simp [hp]
  · simp [doBody]

/-! ## Claim theorems -/

/-- C1: during recovery of the latest relay file the reconciled GTID set
keeps the persisted set when it is a superset of the (purged-extended)
computed set and replaces it by the computed set otherwise; when
`gtid_purged` is empty the computed set is unchanged, and a range
`X:123-456` whose prefix `1-122` is covered by the purged set is extended
to `X:1-456`. -/
theorem claim_C1_recover_gtids (persisted computed purged : GTIDSet) :
    (gsetContain persisted (addGSetWithPurged computed purged) = true →
      recoverGTIDs persisted computed purged = persisted) ∧
    (gsetContain persisted (addGSetWithPurged computed purged) = false →
      recoverGTIDs persisted computed purged = addGSetWithPurged computed purged) ∧
    (gsetEmpty purged = true → addGSetWithPurged computed purged = computed) ∧
    addGSetWithPurged [("X", [(123, 456)])] [("X", [(1, 122)])] =
      [("X", [(1, 456)])] := by
  refine ⟨?_, ?_, ?_, by decide⟩
  · intro h
    simp [recoverGTIDs, h]
  · intro h
    simp [recoverGTIDs, h]
  · intro h
    simp [addGSetWithPurged, h]

/-- Witness for C1 at the recovery scenario of the tests: the persisted
set is not a superset of the purged-extended computed set, so the
computed set (with `Z:123-456` extended to `Z:1-456`) replaces it. -/
theorem claim_C1_witness :
    (gsetContain exPersisted (addGSetWithPurged exComputed exPurged) = false ∧
      recoverGTIDs exPersisted exComputed exPurged =
        addGSetWithPurged exComputed exPurged) ∧
    addGSetWithPurged exComputed exPurged =
      [("X", [(1, 17)]), ("Y", [(1, 505)]), ("Z", [(1, 456)])] :=
  ⟨⟨by decide,
      (claim_C1_recover_gtids exPersisted exComputed exPurged).2.1 (by decide)⟩,
    by decide⟩

/-- C2: after `tryRecoverLatestFile` the file length equals the end
offset of the last syntactically complete event (the truncated file
reparses to the same offset), and the persisted meta position is
`(filename, lastGoodPos)` with the dirty flag cleared (flushed). -/
theorem claim_C2_truncate_correct (filename : String) (file : List Nat)
    (persisted computed purged : GTIDSet) :
    (tryRecoverLatestFile filename file persisted computed purged).bytes.length =
        lastGoodPos file ∧
    lastGoodPos (tryRecoverLatestFile filename file persisted computed purged).bytes =
        lastGoodPos file ∧
    (tryRecoverLatestFile filename file persisted computed purged).metaName =
        filename ∧
    (tryRecoverLatestFile filename file persisted computed purged).metaPos =
        lastGoodPos file ∧
    (tryRecoverLatestFile filename file persisted computed purged).dirty = false := by
  refine ⟨?_, ?_, rfl, rfl, rfl⟩
  · simp only [tryRecoverLatestFile, List.length_take]
    exact Nat.min_eq_left (lastGoodPos_le file)
  · exact lastGoodPos_take file

/-- Counterexample to C3 as stated: with no `subDir` given, the target is
`c.000003` (suffix 3); the active relay log lives in `b.000002`
(suffix 2) and is earlier, so the resulting `safeRelayLog` is the active
one with suffix 2 — yet `c.000003`, whose suffix 3 exceeds the resulting
safe suffix, is kept in `uuids`: the truncation uses the target's suffix,
not the resulting `safeRelayLog`'s. -/
theorem claim_C3_counterexample :
    (exFA.SetActiveRelayLog exActive).safeRelayLog = some exActive ∧
    exActive.uuidSuffix = 2 ∧
    "c.000003" ∈ (exFA.SetActiveRelayLog exActive).uuids ∧
    (parseSuffixForUUID "c.000003").2 = 3 := by
  refine ⟨by decide, by decide, ?_, by decide⟩
  decide

/-- C3 (amended): after `SetActiveRelayLog` on a suffix-sorted `uuids`
list, the list contains exactly the sub-directories whose suffix is not
greater than the TARGET sub-directory's suffix (the given `subDir`, or
the last element when `subDir` is empty) — not the resulting
`safeRelayLog`'s suffix, which can be smaller when the active relay log
replaced it. -/
theorem claim_C3_amended (fa : filenameArgs) (active : RelayLogInfo)
    (hs : fa.uuids.Pairwise fun a b =>
      (parseSuffixForUUID a).2 ≤ (parseSuffixForUUID b).2) :
    ∀ u, u ∈ (fa.SetActiveRelayLog active).uuids ↔
      (u ∈ fa.uuids ∧
        (parseSuffixForUUID u).2 ≤ (parseSuffixForUUID fa.targetSubDir).2) := by
  intro u
  have huuids : (fa.SetActiveRelayLog active).uuids =
      discardNewerUUIDs fa.uuids (parseSuffixForUUID fa.targetSubDir).2 := by
    simp [filenameArgs.SetActiveRelayLog, filenameArgs.targetSubDir]
  rw [huuids]
  exact mem_discardNewerUUIDs _ fa.uuids hs u

/-- Witness for the amended C3 at the counterexample's arguments. -/
theorem claim_C3_witness :
    exFA.uuids.Pairwise (fun a b =>
      (parseSuffixForUUID a).2 ≤ (parseSuffixForUUID b).2) ∧
    ("b.000002" ∈ (exFA.SetActiveRelayLog exActive).uuids ↔
      ("b.000002" ∈ exFA.uuids ∧
        (parseSuffixForUUID "b.000002").2 ≤
          (parseSuffixForUUID exFA.targetSubDir).2)) :=
  ⟨by decide, claim_C3_amended exFA exActive (by decide) "b.000002"⟩

/-- C4: `SetActiveRelayLog` targets the given `subDir` (or the last
element of `uuids` when `subDir` is empty), builds the safe relay log
from it and the requested filename, replaces it with the active relay
log exactly when the active one is earlier, and the resulting safe relay
log is never strictly later than the active one — the purge point never
passes what is currently being read. -/
theorem claim_C4_safe_relay_log (fa : filenameArgs) (active : RelayLogInfo) :
    (fa.subDir ≠ "" → fa.targetSubDir = fa.subDir) ∧
    (fa.subDir = "" → fa.uuids ≠ [] → fa.targetSubDir = fa.uuids.getLastD "") ∧
    (fa.SetActiveRelayLog active).safeRelayLog =
      some (if active.Earlier fa.initialSafeRelayLog then active
            else fa.initialSafeRelayLog) ∧
    (∀ s, (fa.SetActiveRelayLog active).safeRelayLog = some s →
      active.Earlier s = false) := by
  refine ⟨?_, ?_, ?_, ?_⟩
  · intro hne
    rw [filenameArgs.targetSubDir, if_neg]
    intro hcond
    exact hne ((string_length_zero_iff fa.subDir).mp hcond.1)
  · intro he hnil
    rw [filenameArgs.targetSubDir, if_pos]
    refine ⟨?_, ?_⟩
    · rw [he]
      rfl
    · exact List.length_pos.mpr hnil
  · simp only [filenameArgs.SetActiveRelayLog, filenameArgs.initialSafeRelayLog,
      filenameArgs.targetSubDir]
  · intro s hsome
    have h3 : (fa.SetActiveRelayLog active).safeRelayLog =
        some (if active.Earlier fa.initialSafeRelayLog then active
              else fa.initialSafeRelayLog) := by
      simp only [filenameArgs.SetActiveRelayLog, filenameArgs.initialSafeRelayLog,
        filenameArgs.targetSubDir]
    rw [h3] at hsome
    rcases Option.some_inj.mp hsome with rfl
    by_cases hE : active.Earlier fa.initialSafeRelayLog
    · rw [if_pos hE]
      exact Earlier_irrefl active
    · rw [if_neg hE]
      exact Bool.of_not_eq_true hE

/-- Witness for C4 at the example arguments (empty `subDir`, active
relay log in an earlier sub-directory). -/
theorem claim_C4_witness :
    exFA.targetSubDir = exFA.uuids.getLastD "" ∧
    (exFA.SetActiveRelayLog exActive).safeRelayLog =
      some (if exActive.Earlier exFA.initialSafeRelayLog then exActive
            else exFA.initialSafeRelayLog) ∧
    exActive.Earlier exActive = false :=
  ⟨(claim_C4_safe_relay_log exFA exActive).2.1 rfl (by decide),
   (claim_C4_safe_relay_log exFA exActive).2.2.1,
   (claim_C4_safe_relay_log exFA exActive).2.2.2 exActive (by decide)⟩

/-- C5: when a rotate event is written (not ignored, no write error) the
meta position becomes the rotate target `(name, 4)`, the pending GTID
buffer is cleared, and Save+Flush happen immediately so the dirty flag is
false right after the event; the pump records the written event and
continues from the updated state. -/
theorem claim_C5_rotate_flush (writer : WriterBehavior) (st : PumpState)
    (hdr : EventHeader) (name : String) (np : Nat) (rest : List ReadItem)
    (hw : writer ⟨hdr, .rotate name np⟩ = (none, false)) :
    (applyMeta st ⟨hdr, .rotate name np⟩).meta.posName = name ∧
    (applyMeta st ⟨hdr, .rotate name np⟩).meta.posPos = 4 ∧
    (applyMeta st ⟨hdr, .rotate name np⟩).pending = [] ∧
    (applyMeta st ⟨hdr, .rotate name np⟩).meta.dirty = false ∧
    handleEvents writer st (.ev ⟨hdr, .rotate name np⟩ :: rest) =
      ((handleEvents writer (applyMeta st ⟨hdr, .rotate name np⟩) rest).1,
        (handleEvents writer (applyMeta st ⟨hdr, .rotate name np⟩) rest).2.1,
        ⟨hdr, .rotate name np⟩ ::
          (handleEvents writer (applyMeta st ⟨hdr, .rotate name np⟩) rest).2.2) := by
  refine ⟨rfl, rfl, rfl, rfl, ?_⟩
  simp [handleEvents, transformIgnore, hw]

/-- Witness for C5 at a concrete rotate event and accepting writer. -/
theorem claim_C5_witness :
    (applyMeta exPumpState exRotateEv).meta.posName = "mysql-bin.666888" ∧
    (applyMeta exPumpState exRotateEv).meta.posPos = 4 ∧
    (applyMeta exPumpState exRotateEv).pending = [] ∧
    (applyMeta exPumpState exRotateEv).meta.dirty = false ∧
    handleEvents okWriter exPumpState (.ev exRotateEv :: []) =
      ((handleEvents okWriter (applyMeta exPumpState exRotateEv) []).1,
        (handleEvents okWriter (applyMeta exPumpState exRotateEv) []).2.1,
        exRotateEv ::
          (handleEvents okWriter (applyMeta exPumpState exRotateEv) []).2.2) :=
  claim_C5_rotate_flush okWriter exPumpState ⟨123⟩ "mysql-bin.666888" 4 [] rfl

/-- C6: after any prefix of successfully written events, a reader error
is propagated unwrapped as the pump's error (no cancellation mark), and a
context cancellation returns a canceled result with no error. -/
theorem claim_C6_error_propagation (writer : WriterBehavior) (st : PumpState)
    (evs : List BinlogEvent) (e : ReaderError) (rest tail : List ReadItem)
    (hok : ∀ ev ∈ evs, (writer ev).1 = none) :
    (handleEvents writer st (evs.map .ev ++ .fail e :: rest)).1 =
      ⟨false, some (.readerErr e)⟩ ∧
    (handleEvents writer st (evs.map .ev ++ .canceled :: tail)).1 =
      ⟨true, none⟩ := by
  induction evs generalizing st with
  | nil => exact ⟨rfl, rfl⟩
  | cons ev evs ih =>
      have hev : (writer ev).1 = none := hok ev (List.mem_cons_self _ _)
      have hok' : ∀ x ∈ evs, (writer x).1 = none := fun x hx =>
        hok x (List.mem_cons_of_mem _ hx)
      rcases hwr : writer ev with ⟨w1, w2⟩
      have hw1 : w1 = none := by
        rw [hwr] at hev
        exact hev
      subst hw1
      by_cases hti : transformIgnore ev
      · constructor
        · simpa [handleEvents, hti] using (ih st hok').1
        · simpa [handleEvents, hti] using (ih st hok').2
      · constructor
        · simpa [handleEvents, hti, hwr] using
            (ih (if w2 then st else applyMeta st ev) hok').1
        · simpa [handleEvents, hti, hwr] using
            (ih (if w2 then st else applyMeta st ev) hok').2

/-- Witness for C6: one written query event followed by a checksum
mismatch, resp. a cancellation. -/
theorem claim_C6_witness :
    (handleEvents okWriter exPumpState
        ([exQueryEv].map .ev ++ .fail .checksumMismatch :: [])).1 =
      ⟨false, some (.readerErr .checksumMismatch)⟩ ∧
    (handleEvents okWriter exPumpState
        ([exQueryEv].map .ev ++ .canceled :: [])).1 = ⟨true, none⟩ :=
  claim_C6_error_propagation okWriter exPumpState [exQueryEv]
    .checksumMismatch [] []
    (by
      intro ev hev
      rcases List.mem_singleton.mp hev with rfl
      rfl)

/-- C7: an event the Transformer marks `Ignore` is skipped whole — the
run equals the run without it (nothing written, meta untouched); an event
whose writer result is `Ignore` is written but the meta update is
skipped, the rest of the state being unchanged. -/
theorem claim_C7_ignore_frame (writer : WriterBehavior) (st : PumpState)
    (ev : BinlogEvent) (rest : List ReadItem) :
    (transformIgnore ev = true →
      handleEvents writer st (.ev ev :: rest) = handleEvents writer st rest) ∧
    (transformIgnore ev = false → writer ev = (none, true) →
      handleEvents writer st (.ev ev :: rest) =
        ((handleEvents writer st rest).1, (handleEvents writer st rest).2.1,
          ev :: (handleEvents writer st rest).2.2)) := by
  constructor
  · intro hti
    simp [handleEvents, hti]
  · intro hti hwr
    simp [handleEvents, hti, hwr]

/-- Witness for C7: a heartbeat event is skipped whole; a query event
with an ignoring writer is written without a meta update. -/
theorem claim_C7_witness :
    handleEvents okWriter exPumpState (.ev exHeartbeatEv :: []) =
      handleEvents okWriter exPumpState [] ∧
    handleEvents ignWriter exPumpState (.ev exQueryEv :: []) =
      ((handleEvents ignWriter exPumpState []).1,
        (handleEvents ignWriter exPumpState []).2.1,
        exQueryEv :: (handleEvents ignWriter exPumpState []).2.2) :=
  ⟨(claim_C7_ignore_frame okWriter exPumpState exHeartbeatEv []).1 rfl,
   (claim_C7_ignore_frame ignWriter exPumpState exQueryEv []).2 rfl rfl⟩

/-- C8: after `Close()` on a not-yet-closed holder the internal stage is
`Paused` (not `Stopped`), `closed` is true, the pump's result is
recorded, a second `Close()` is a no-op, and the observable contract
holds: `Status()` reports stage `Stopped` and `Error()` returns message
"relay stopped". -/
theorem claim_C8_close_observability (h : HolderState) (pr pr' : ProcessResult)
    (hnc : h.closed = false) :
    (closeHolder h pr).stage = .paused ∧
    (closeHolder h pr).closed = true ∧
    (closeHolder h pr).result = some pr ∧
    closeHolder (closeHolder h pr) pr' = closeHolder h pr ∧
    (holderStatus (closeHolder h pr)).1 = .stopped ∧
    holderError (closeHolder h pr) = some "relay stopped" := by
  have hc : closeHolder h pr =
      { stage := .paused, closed := true, result := some pr } := by
    rw [closeHolder, if_neg]
    rw [hnc]
    exact Bool.false_ne_true
  rw [hc]
  exact ⟨rfl, rfl, rfl, rfl, rfl, rfl⟩

/-- Witness for C8 at a running, unclosed holder. -/
theorem claim_C8_witness :
    (closeHolder exHolder exProcResult).stage = .paused ∧
    (closeHolder exHolder exProcResult).closed = true ∧
    (closeHolder exHolder exProcResult).result = some exProcResult ∧
    closeHolder (closeHolder exHolder exProcResult) exProcResult =
      closeHolder exHolder exProcResult ∧
    (holderStatus (closeHolder exHolder exProcResult)).1 = .stopped ∧
    holderError (closeHolder exHolder exProcResult) = some "relay stopped" :=
  claim_C8_close_observability exHolder exProcResult exProcResult rfl

/-- C9: the compare-and-swap on the `purging` flag serializes concurrent
`Do` calls: the call that wins the swap proceeds (its result is never
`ErrSelfPurging`), while a call that arrives with the flag already held
returns `ErrSelfPurging`, deletes nothing and leaves the flag alone. -/
theorem claim_C9_single_purge (errOn : String → String → Bool)
    (argsA argsB : DoArgs) (fs fsB : FileSys) :
    (casPurging ⟨0⟩).1 = true ∧
    filenameStrategy.Do errOn ⟨1⟩ argsB fsB = (.selfPurging, ⟨1⟩, fsB) ∧
    (filenameStrategy.Do errOn ⟨0⟩ argsA fs).1 ≠ .selfPurging := by
  refine ⟨rfl, rfl, ?_⟩
  have hbody : (filenameStrategy.Do errOn ⟨0⟩ argsA fs).1 =
      (doBody errOn argsA fs).1 := rfl
  rw [hbody]
  exact doBody_fst_ne_selfPurging errOn argsA fs

/-- C10: every return path of `Do` that passed the compare-and-swap —
success, invalid-args rejection, or a file-deletion error, i.e. whatever
`doBody` returns — resets the `purging` flag to 0, so `Purging()` is
false afterwards and a subsequent `Do` is never rejected with
`ErrSelfPurging` because of an earlier completed or failed purge. -/
theorem claim_C10_flag_reset (errOn errOn' : String → String → Bool)
    (args args' : DoArgs) (fs fs' : FileSys) :
    (filenameStrategy.Do errOn ⟨0⟩ args fs).1 = (doBody errOn args fs).1 ∧
    (filenameStrategy.Do errOn ⟨0⟩ args fs).2.1.purging = 0 ∧
    (filenameStrategy.Do errOn ⟨0⟩ args fs).2.1.Purging = false ∧
    (filenameStrategy.Do errOn'
        (filenameStrategy.Do errOn ⟨0⟩ args fs).2.1 args' fs').1 ≠
      .selfPurging := by
  refine ⟨rfl, rfl, rfl, ?_⟩
  have hbody : (filenameStrategy.Do errOn'
      (filenameStrategy.Do errOn ⟨0⟩ args fs).2.1 args' fs').1 =
      (doBody errOn' args' fs').1 := rfl
  rw [hbody]
  exact doBody_fst_ne_selfPurging errOn' args' fs'

end Relay
